import Mathlib

/-!
Shallow embedding of the `migrate` Go package (checksum-chained migration step
registry, migrator state machine, and transactional step-execution protocol).

Modelling conventions:
* Go errors are modelled by the inductive `GoErr`; wrapping with
  `fmt.Errorf("...: %w", e)` becomes `GoErr.wrap ctx e` and the two-`%w` form
  becomes `GoErr.wrap2`; `errors.Is` becomes `GoErr.is`.  Dynamic parts of the
  message text that no observable behaviour depends on (hex dumps of checksums)
  are elided from the `ctx` strings.
* Machine integers: Go `int` version identifiers become `Int` (the bad sentinel
  is `-1`); byte values become `Nat` below 256; `uint64` conversion is an
  explicit `% 2^64`.
* The SHA-256 function from the Go standard library is external to the
  repository, so the registry is parameterised by an arbitrary digest function
  `sha : List Nat -> List Nat`; every claim about checksums is proved for all
  such functions.
* Mutexes, contexts and loggers carry no modelled behaviour: locks serialise
  the methods (which here are pure state transformers), contexts are only
  passed through, and loggers never influence control flow or state.
* Stateful methods are modelled by explicit state passing: a Go method that
  mutates its receiver or the database returns the updated receiver / database
  state alongside its Go return values.
-/

namespace Migrate

/-- Go error values (`error.go` and the `fmt.Errorf` wrapping sites).
`sentinel` is a `migrate.Error` string constant; `msg` an error built without
`%w`; `wrap` an error built with one `%w` (the non-`%w` text kept in `ctx`);
`wrap2` an error built with two `%w` verbs, whose `Unwrap` exposes both. -/
inductive GoErr where
  | sentinel (msg : String)
  | msg (text : String)
  | wrap (ctx : String) (inner : GoErr)
  | wrap2 (ctx : String) (a : GoErr) (b : GoErr)
deriving DecidableEq, Repr

/-- `errors.Is(e, t)`: equality, else recurse through the unwrap chain.
(Structural equality of wrap nodes is coarser than Go pointer equality of
distinct `fmt.Errorf` results, but no claim distinguishes the two.) -/
def GoErr.is (e t : GoErr) : Bool :=
  e == t ||
    match e with
    | .wrap _ inner => inner.is t
    | .wrap2 _ a b => a.is t || b.is t
    | _ => false

-- The sentinel error constants of `error.go`.
def ErrBadParameters : GoErr := .sentinel "bad parameters"
def ErrAlreadyInitialized : GoErr := .sentinel "already initialized"
def ErrBadVersionID : GoErr := .sentinel "bad version identifier"
def ErrBadVersionChecksum : GoErr := .sentinel "bad version checksum"
def ErrNotInitialized : GoErr := .sentinel "not initialized"
def ErrBadVersion : GoErr := .sentinel "bad version"
def ErrEndOfSteps : GoErr := .sentinel "end of steps"
def ErrNotSQLDB : GoErr := .sentinel "not an SQL database"
def ErrCancel : GoErr := .sentinel "cancel transaction"
def ErrAbort : GoErr := .sentinel "abort transaction"

/-- `version.go`: a migration version.  Go's `Checksum [32]byte` becomes a
list of byte values (the digest function always produces the same length, so
nothing depends on the fixed size 32). -/
structure Version where
  ID : Int
  Checksum : List Nat
deriving DecidableEq, Repr

/-- `version.go`: `badVersion = Version{ID: -1}` (zero-valued checksum). -/
def badVersion : Version := { ID := -1, Checksum := List.replicate 32 0 }

/-- `Version.String()`; the truncated hex dump of the checksum is elided. -/
def Version.str (v : Version) : String := "v" ++ toString v.ID

/-- The UTF-8 encoding of one character, as byte values (mirrors the standard
encoding used by Go strings). -/
def utf8Bytes (c : Char) : List Nat :=
  let n := c.toNat
  if n < 0x80 then [n]
  else if n < 0x800 then [0xC0 + n / 64, 0x80 + n % 64]
  else if n < 0x10000 then [0xE0 + n / 4096, 0x80 + n / 64 % 64, 0x80 + n % 64]
  else [0xF0 + n / 262144, 0x80 + n / 4096 % 64, 0x80 + n / 64 % 64, 0x80 + n % 64]

/-- The byte sequence of a Go string (`[]byte(name)`): its UTF-8 bytes. -/
def strBytes (s : String) : List Nat := (s.data.map utf8Bytes).flatten

/-- `binary.LittleEndian.AppendUint64`: the 8 little-endian bytes of
`uint64(n)`.  The `uint64` conversion is the explicit `% 2^64`. -/
def le64 (n : Nat) : List Nat :=
  (List.range 8).map (fun k => n % 2 ^ 64 / 256 ^ k % 256)

/-- `steps.go`: the concrete `stepInfo` record behind the `StepInfo`
interface (fields `name`, `from`, `to`; `from`/`to` are renamed `From`/`To`
after their accessor methods because `from` is a Lean keyword). -/
structure StepInfo where
  name : String
  From : Version
  To : Version
deriving DecidableEq, Repr

/-- A step operation (`StepFunc` in Go).  The Go signature is
`func(ctx, db Database, info StepInfo, dryRun bool, log Logger) error`; the
database handle, context and logger are absorbed into the state-transformer
view: the operation reads `info` and `dryRun` and transforms the external
database state `σ`, returning the Go error. -/
def StepFunc (σ : Type) := σ → StepInfo → Bool → Option GoErr × σ

/-- `steps.go`: one migration step.  Go's nilable function fields become
`Option`. -/
structure Step (σ : Type) where
  name : String
  up : Option (StepFunc σ)
  down : Option (StepFunc σ)
  version : Version

/-- Default `Step` used to model Go's (unreachable) out-of-bounds slice
accesses: within the Go package the `steps` slice is package-private and every
access is bounds-checked beforehand. -/
def dfltStep (σ : Type) : Step σ :=
  { name := "", up := none, down := none, version := badVersion }

/-- `steps.go`: the read-only step registry.  The `sync.RWMutex` is elided.
`IDs` records the invariant that the `version.ID` of the step at index `i` is
`i`; in Go this holds for every reachable `Steps` value because the `steps`
slice is package-private and only `NewSteps`/`Append` build it. -/
structure Steps (σ : Type) where
  steps : List (Step σ)
  IDs : steps.map (fun st => st.version.ID) =
    (List.range steps.length).map Int.ofNat

/-- Go's `s.steps[i]` (every use in the source is bounds-checked before). -/
def Steps.stepAt (s : Steps σ) (i : Nat) : Step σ := s.steps.getD i (dfltStep σ)

/-- `steps.go` `NewSteps`: registry with the single anchor step, checksum
`SHA256(rootName)`. -/
def NewSteps (sha : List Nat → List Nat) (name : String) : Steps σ :=
  { steps := [{ name := name, up := none, down := none,
                version := { ID := 0, Checksum := sha (strBytes name) } }],
    IDs := rfl }

/-- `steps.go` `Steps.Append`: reject an empty name, otherwise append a step
whose checksum is `sha(prev.Checksum ++ le64 ID ++ name)` with `ID` the new
index.  The Go method mutates the receiver; here the updated registry is the
`.ok` payload and the error case returns the registry to the caller
unchanged. -/
def Steps.Append (sha : List Nat → List Nat) (s : Steps σ) (name : String)
    (up down : Option (StepFunc σ)) : Except GoErr (Steps σ) :=
  if name = "" then .error (.msg "append step: name is empty")
  else
    .ok { steps := s.steps ++
            [{ name := name, up := up, down := down,
               version := { ID := (s.steps.length : Int),
                            Checksum := sha ((s.stepAt (s.steps.length - 1)).version.Checksum
                              ++ le64 s.steps.length ++ strBytes name) } }],
          IDs := by
            rw [List.length_append, List.length_cons, List.length_nil,
              List.range_succ, List.map_append, List.map_append, s.IDs,
              List.map_cons, List.map_nil, List.map_cons, List.map_nil]
            rfl }

/-- `steps.go` `Steps.Len`. -/
def Steps.Len (s : Steps σ) : Nat := s.steps.length

/-- `steps.go` `Steps.checkID`: `ID < 0 || ID >= len(s.steps)` yields an error
wrapping `ErrBadVersionID`. -/
def Steps.checkID (s : Steps σ) (ID : Int) : Option GoErr :=
  if ID < 0 ∨ (s.steps.length : Int) ≤ ID then
    some (.wrap ("id " ++ toString ID) ErrBadVersionID)
  else none

/-- `steps.go` `Steps.Version` (renamed: `Version` is the version type).
Go returns `(badVersion, err)` on failure and `(s.steps[ID].version, nil)` on
success; the pair is modelled as `Except`. -/
def Steps.VersionAt (s : Steps σ) (ID : Int) : Except GoErr Version :=
  match s.checkID ID with
  | some e => .error e
  | none => .ok (s.stepAt ID.toNat).version

/-- `steps.go` `Steps.Name`. -/
def Steps.Name (s : Steps σ) (ID : Int) : Except GoErr String :=
  match s.checkID ID with
  | some e => .error e
  | none => .ok (s.stepAt ID.toNat).name

/-- `steps.go` `Steps.check` (and the public `Steps.Check`, which only adds
the elided lock): `checkID`, then compare the stored version with `v`; a
mismatch yields an error wrapping `ErrBadVersionChecksum` (its message quotes
both checksums in hex, elided here). -/
def Steps.check (s : Steps σ) (v : Version) : Option GoErr :=
  match s.checkID v.ID with
  | some e => some e
  | none =>
    if (s.stepAt v.ID.toNat).version ≠ v then
      some (.wrap "expect, got" ErrBadVersionChecksum)
    else none

/-- `steps.go` `Steps.Check`. -/
def Steps.Check (s : Steps σ) (v : Version) : Option GoErr := s.check v

/-- `steps.go` `Steps.Up`: invalid version yields an error wrapping
`ErrBadVersion` (note: the `check` error itself is formatted with `%v` into
the message, not wrapped); last index yields an error wrapping
`ErrEndOfSteps`; otherwise the step info `v -> v+1` and the `up` operation
registered at index `v.ID+1`. -/
def Steps.Up (s : Steps σ) (v : Version) :
    Except GoErr (StepInfo × Option (StepFunc σ)) :=
  match s.check v with
  | some _ => .error (.wrap v.str ErrBadVersion)
  | none =>
    if v.ID = (s.steps.length : Int) - 1 then .error (.wrap v.str ErrEndOfSteps)
    else
      .ok ({ name := (s.stepAt (v.ID.toNat + 1)).name,
             From := (s.stepAt v.ID.toNat).version,
             To := (s.stepAt (v.ID.toNat + 1)).version },
           (s.stepAt (v.ID.toNat + 1)).up)

/-- `steps.go` `Steps.Down`: symmetric to `Up`; index 0 yields an error
wrapping `ErrEndOfSteps`; otherwise the step info `v -> v-1` and the `down`
operation registered at index `v.ID` (the step being undone). -/
def Steps.Down (s : Steps σ) (v : Version) :
    Except GoErr (StepInfo × Option (StepFunc σ)) :=
  match s.check v with
  | some _ => .error (.wrap v.str ErrBadVersion)
  | none =>
    if v.ID = 0 then .error (.wrap v.str ErrEndOfSteps)
    else
      .ok ({ name := (s.stepAt v.ID.toNat).name,
             From := (s.stepAt v.ID.toNat).version,
             To := (s.stepAt (v.ID.toNat - 1)).version },
           (s.stepAt v.ID.toNat).down)

/-- The `Database` interface consumed by the Migrator (`api.go`): each method
transforms the external database state `σ` and returns its Go results.  The
contexts and loggers of the Go signatures are elided (see the header). -/
structure Database (σ : Type) where
  InitVersion : σ → Version → Bool → Option GoErr × σ
  Version : σ → Except GoErr Version × σ
  DefaultStepFunc : σ → StepInfo → Bool → Option GoErr × σ

/-- `migrate.go`: the Migrator.  The mutex is elided (it only serialises the
public methods, which are pure state transformers here); the logger carries no
modelled behaviour. -/
structure Migrator (σ : Type) where
  db : Database σ
  steps : Steps σ
  cachedVersion : Version

/-- `migrate.go` `New`: fresh migrator with the bad sentinel as cached
version.  The Go nil-checks on `db`/`steps` (returning `ErrBadParameters`)
have no counterpart because the model's parameters cannot be nil; the nil
logger is replaced by the nil logger object, which is behaviour-free. -/
def New (db : Database σ) (steps : Steps σ) : Migrator σ :=
  { db := db, steps := steps, cachedVersion := badVersion }

/-- `migrate.go` `versionCtx`: reset the cache to the bad sentinel, read the
database version, validate it against the registry, and cache it on success.
Go returns `(m.cachedVersion, err)`; the updated migrator and database state
are returned alongside. -/
def Migrator.versionCtx (m : Migrator σ) (s : σ) :
    (Version × Option GoErr) × Migrator σ × σ :=
  let m0 := { m with cachedVersion := badVersion }
  match m.db.Version s with
  | (.error e, s1) => ((badVersion, some e), m0, s1)
  | (.ok v, s1) =>
    match m.steps.Check v with
    | some e => ((badVersion, some e), m0, s1)
    | none => ((v, none), { m with cachedVersion := v }, s1)

/-- `migrate.go` `VersionCtx` (and `Version`, which only adds the background
context): `versionCtx` under the elided lock. -/
def Migrator.VersionCtx (m : Migrator σ) (s : σ) :
    (Version × Option GoErr) × Migrator σ × σ := m.versionCtx s

/-- `migrate.go` `initCtx`: a successful version read means the database is
already initialized; otherwise fetch step 0's version and write it through
`db.InitVersion`, caching it unless this is a dry run. -/
def Migrator.initCtx (m : Migrator σ) (s : σ) (dryRun : Bool) :
    Option GoErr × Migrator σ × σ :=
  match m.versionCtx s with
  | ((_, none), m1, s1) =>
    (some (.wrap ("as " ++ m1.cachedVersion.str) ErrAlreadyInitialized), m1, s1)
  | ((_, some _), m1, s1) =>
    match m1.steps.VersionAt 0 with
    | .error e => (some (.wrap2 "" ErrNotInitialized e), m1, s1)
    | .ok v =>
      match m1.db.InitVersion s1 v dryRun with
      | (some e, s2) => (some (.wrap2 "" ErrNotInitialized e), m1, s2)
      | (none, s2) =>
        if dryRun then (none, m1, s2)
        else (none, { m1 with cachedVersion := v }, s2)

/-- `migrate.go` `InitCtx` (and `Init`). -/
def Migrator.InitCtx (m : Migrator σ) (s : σ) : Option GoErr × Migrator σ × σ :=
  m.initCtx s false

/-- `migrate.go` `InitDryRunCtx` (and `InitDryRun`). -/
def Migrator.InitDryRunCtx (m : Migrator σ) (s : σ) :
    Option GoErr × Migrator σ × σ :=
  m.initCtx s true

/-- `migrate.go` `oneUp`: look up the step above the cached version, run its
`up` operation (or the database default when it is nil), and advance the cache
to `info.To()` only when the operation succeeded and this is not a dry run. -/
def Migrator.oneUp (m : Migrator σ) (s : σ) (dryRun : Bool) :
    Option GoErr × Migrator σ × σ :=
  match m.steps.Up m.cachedVersion with
  | .error e => (some e, m, s)
  | .ok (info, upF) =>
    let r :=
      match upF with
      | none => m.db.DefaultStepFunc s info dryRun
      | some f => f s info dryRun
    match r.1, dryRun with
    | none, false => (none, { m with cachedVersion := info.To }, r.2)
    | err, _ => (err, m, r.2)

/-- `migrate.go` `oneDown`: symmetric to `oneUp` with `steps.Down`. -/
def Migrator.oneDown (m : Migrator σ) (s : σ) (dryRun : Bool) :
    Option GoErr × Migrator σ × σ :=
  match m.steps.Down m.cachedVersion with
  | .error e => (some e, m, s)
  | .ok (info, downF) =>
    let r :=
      match downF with
      | none => m.db.DefaultStepFunc s info dryRun
      | some f => f s info dryRun
    match r.1, dryRun with
    | none, false => (none, { m with cachedVersion := info.To }, r.2)
    | err, _ => (err, m, r.2)

/-- `migrate.go` `OneUpCtx` (and `OneUp`): `oneUp` with failures wrapped as
`"one up: %w"`. -/
def Migrator.OneUpCtx (m : Migrator σ) (s : σ) : Option GoErr × Migrator σ × σ :=
  match m.oneUp s false with
  | (some e, m1, s1) => (some (.wrap "one up" e), m1, s1)
  | (none, m1, s1) => (none, m1, s1)

/-- `migrate.go` `OneDownCtx` (and `OneDown`): failures wrapped as
`"one down: %w"`. -/
def Migrator.OneDownCtx (m : Migrator σ) (s : σ) : Option GoErr × Migrator σ × σ :=
  match m.oneDown s false with
  | (some e, m1, s1) => (some (.wrap "one down" e), m1, s1)
  | (none, m1, s1) => (none, m1, s1)

/-- `migrate.go` `OneUpDryRunCtx` (and `OneUpDryRun`): failures wrapped as
`"one up dry run: %w"`. -/
def Migrator.OneUpDryRunCtx (m : Migrator σ) (s : σ) :
    Option GoErr × Migrator σ × σ :=
  match m.oneUp s true with
  | (some e, m1, s1) => (some (.wrap "one up dry run" e), m1, s1)
  | (none, m1, s1) => (none, m1, s1)

/-- `migrate.go` `OneDownDryRunCtx` (and `OneDownDryRun`): failures wrapped as
`"one down dry run: %w"`. -/
def Migrator.OneDownDryRunCtx (m : Migrator σ) (s : σ) :
    Option GoErr × Migrator σ × σ :=
  match m.oneDown s true with
  | (some e, m1, s1) => (some (.wrap "one down dry run" e), m1, s1)
  | (none, m1, s1) => (none, m1, s1)

/-- Pointwise form of the registry's `IDs` invariant: the step stored at
index `i` carries version identifier `i`.  (Proof-valued helper used by the
termination arguments of the `All*` loops below.) -/
def Steps.ID_at (s : Steps σ) (i : Nat) (h : i < s.steps.length) :
    (s.stepAt i).version.ID = Int.ofNat i := by
  have hmap := congrArg (fun l => l.getD i (0 : Int)) s.IDs
  simp only [List.getD_eq_getElem?_getD] at hmap
  rw [List.getElem?_map, List.getElem?_map, List.getElem?_range h,
    List.getElem?_eq_getElem (by simpa using h)] at hmap
  simpa [Steps.stepAt, List.getD_eq_getElem?_getD,
    List.getElem?_eq_getElem h] using hmap

/-- `Steps.check` succeeds exactly on in-range versions that match the stored
step version.  (Proof-valued helper for the termination arguments.) -/
def Steps.check_none (s : Steps σ) (v : Version) (h : s.check v = none) :
    0 ≤ v.ID ∧ v.ID < (s.steps.length : Int) ∧ (s.stepAt v.ID.toNat).version = v := by
  unfold Steps.check at h
  rcases hid : s.checkID v.ID with _ | e <;> rw [hid] at h
  · unfold Steps.checkID at hid
    by_cases hc : v.ID < 0 ∨ (s.steps.length : Int) ≤ v.ID
    · rw [if_pos hc] at hid; cases hid
    · push_neg at hc
      refine ⟨hc.1, hc.2, ?_⟩
      by_cases hv : (s.stepAt v.ID.toNat).version = v
      · exact hv
      · rw [if_pos hv] at h; cases h
  · cases h

/-- A successful non-dry `oneUp` advances the cached version identifier by
one and keeps the registry; proof-valued helper for `AllUpCtx` termination. -/
def Migrator.oneUp_success (m : Migrator σ) (s : σ) (m1 : Migrator σ) (s1 : σ)
    (h : m.oneUp s false = (none, m1, s1)) :
    m1.steps = m.steps ∧ m1.cachedVersion.ID.toNat = m.cachedVersion.ID.toNat + 1 ∧
      m.cachedVersion.ID.toNat + 1 < m.steps.steps.length := by
  unfold Migrator.oneUp at h
  rcases hu : m.steps.Up m.cachedVersion with e | ⟨info, upF⟩ <;> rw [hu] at h
  · exact absurd (congrArg Prod.fst h) (by simp)
  · have hm1 : m1 = { m with cachedVersion := info.To } := by
      rcases hr : (match upF with
        | none => m.db.DefaultStepFunc s info false
        | some f => f s info false).1 with _ | e2 <;> simp [hr] at h
      · exact h.1.symm
    unfold Steps.Up at hu
    rcases hc : m.steps.check m.cachedVersion with _ | e3 <;> rw [hc] at hu
    · by_cases hlast : m.cachedVersion.ID = (m.steps.steps.length : Int) - 1
      · simp [hlast] at hu
      · simp only [if_neg hlast, Except.ok.injEq, Prod.mk.injEq] at hu
        obtain ⟨h0, hlt, _⟩ := m.steps.check_none m.cachedVersion hc
        have hbound : m.cachedVersion.ID.toNat + 1 < m.steps.steps.length := by
          omega
        have hto : info.To = (m.steps.stepAt (m.cachedVersion.ID.toNat + 1)).version := by
          rw [← hu.1]
        have hID := m.steps.ID_at (m.cachedVersion.ID.toNat + 1) hbound
        have hcv : m1.cachedVersion =
            (m.steps.stepAt (m.cachedVersion.ID.toNat + 1)).version := by
          rw [hm1]; exact hto
        refine ⟨by rw [hm1], ?_, hbound⟩
        rw [hcv, hID]
        rfl
    · simp at hu

/-- A successful non-dry `oneDown` decreases the cached version identifier by
one and keeps the registry; proof-valued helper for `AllDownCtx`
termination. -/
def Migrator.oneDown_success (m : Migrator σ) (s : σ) (m1 : Migrator σ) (s1 : σ)
    (h : m.oneDown s false = (none, m1, s1)) :
    m1.steps = m.steps ∧ m1.cachedVersion.ID.toNat + 1 = m.cachedVersion.ID.toNat := by
  unfold Migrator.oneDown at h
  rcases hu : m.steps.Down m.cachedVersion with e | ⟨info, downF⟩ <;> rw [hu] at h
  · exact absurd (congrArg Prod.fst h) (by simp)
  · have hm1 : m1 = { m with cachedVersion := info.To } := by
      rcases hr : (match downF with
        | none => m.db.DefaultStepFunc s info false
        | some f => f s info false).1 with _ | e2 <;> simp [hr] at h
      · exact h.1.symm
    unfold Steps.Down at hu
    rcases hc : m.steps.check m.cachedVersion with _ | e3 <;> rw [hc] at hu
    · by_cases hzero : m.cachedVersion.ID = 0
      · simp [hzero] at hu
      · simp only [if_neg hzero, Except.ok.injEq, Prod.mk.injEq] at hu
        obtain ⟨h0, hlt, _⟩ := m.steps.check_none m.cachedVersion hc
        have hpos : 0 < m.cachedVersion.ID.toNat := by omega
        have hbound : m.cachedVersion.ID.toNat - 1 < m.steps.steps.length := by omega
        have hto : info.To = (m.steps.stepAt (m.cachedVersion.ID.toNat - 1)).version := by
          rw [← hu.1]
        have hID := m.steps.ID_at (m.cachedVersion.ID.toNat - 1) hbound
        have hcv : m1.cachedVersion =
            (m.steps.stepAt (m.cachedVersion.ID.toNat - 1)).version := by
          rw [hm1]; exact hto
        refine ⟨by rw [hm1], ?_⟩
        rw [hcv, hID]
        have hback : (Int.ofNat (m.cachedVersion.ID.toNat - 1)).toNat =
            m.cachedVersion.ID.toNat - 1 := rfl
        omega
    · simp at hu

/-- `migrate.go` `AllUpCtx` (and `AllUp`): repeat `oneUp` until it fails;
an `ErrEndOfSteps` failure is converted to success, any other failure is
returned wrapped as `"all up: %w"`.  Termination: each successful `oneUp`
advances the cached version identifier towards the end of the registry. -/
def Migrator.AllUpCtx (m : Migrator σ) (s : σ) : Option GoErr × Migrator σ × σ :=
  match h : m.oneUp s false with
  | (some e, m1, s1) =>
    if e.is ErrEndOfSteps then (none, m1, s1)
    else (some (.wrap "all up" e), m1, s1)
  | (none, m1, s1) => m1.AllUpCtx s1
termination_by m.steps.steps.length - m.cachedVersion.ID.toNat
decreasing_by
  obtain ⟨hs, hid, hbound⟩ := m.oneUp_success s m1 s1 h
  rw [hs, hid]
  omega

/-- `migrate.go` `AllDownCtx` (and `AllDown`): repeat `oneDown` until it
fails; an `ErrEndOfSteps` failure is converted to success, any other failure
is returned wrapped as `"all down: %w"`. -/
def Migrator.AllDownCtx (m : Migrator σ) (s : σ) : Option GoErr × Migrator σ × σ :=
  match h : m.oneDown s false with
  | (some e, m1, s1) =>
    if e.is ErrEndOfSteps then (none, m1, s1)
    else (some (.wrap "all down" e), m1, s1)
  | (none, m1, s1) => m1.AllDownCtx s1
termination_by m.cachedVersion.ID.toNat
decreasing_by
  obtain ⟨_, hid⟩ := m.oneDown_success s m1 s1 h
  omega

/-- The transactional capability of an SQL database (`sqldb.go`), restricted
to what `TxF` calls inside the transaction: reading and conditionally
updating the version row of the pending (uncommitted) database state `δ`.
`SetVersionTx` takes the step info and the informational dry-run flag as in
Go. -/
structure TxDB (δ : Type) where
  VersionTx : δ → Except GoErr Version
  SetVersionTx : δ → StepInfo → Bool → Option GoErr × δ

/-- `sqldb.go` `TxFunc`: a user callback given the live transaction handle;
modelled as a transformer of the pending transaction state. -/
def TxFunc (δ : Type) := δ → StepInfo → Bool → Option GoErr × δ

/-- The callback loop inside `TxF` (`for _, f := range fs { ... }` with its
`cancel` flag): run the callbacks in order on the pending state; a callback
error satisfying `errors.Is(err, ErrCancel)` sets the flag and execution
continues with the next callback; any other error returns immediately. -/
def runTxFuncs (fs : List (TxFunc δ)) (p : δ) (info : StepInfo) (dryRun : Bool)
    (cancel : Bool) : Option GoErr × δ × Bool :=
  match fs with
  | [] => (none, p, cancel)
  | f :: rest =>
    match f p info dryRun with
    | (none, p1) => runTxFuncs rest p1 info dryRun cancel
    | (some e, p1) =>
      if e.is ErrCancel then runTxFuncs rest p1 info dryRun true
      else (some e, p1, cancel)

/-- `sqldb.go` `TxF`: the transactional-callback step function.  The returned
pair is (Go error, durable database state after the call).  The transaction
is modelled by running the body against the pending state (initially the
snapshot `s`); the deferred `FinalizeTransaction` commits the pending state
only when the body returned no error and `dryRun` is false, otherwise the
durable state stays `s`; the second deferred function then swallows a
`Cancel` result and wraps any other failure with the `from -> to` (and
dry-run) context.  Elided as driver-level externals: the `SQLDB` type
assertion (`ErrNotSQLDB`), begin/commit/rollback failures, and logging. -/
def TxF (db : TxDB δ) (fs : List (TxFunc δ)) (s : δ) (info : StepInfo)
    (dryRun : Bool) : Option GoErr × δ :=
  let body : Option GoErr × δ :=
    match db.VersionTx s with
    | .error e => (some e, s)
    | .ok dbv =>
      if dbv ≠ info.From then (some (.msg ("db is " ++ dbv.str)), s)
      else
        match runTxFuncs fs s info dryRun false with
        | (some e, p1, _) => (some e, p1)
        | (none, p1, true) => (some ErrCancel, p1)
        | (none, p1, false) =>
          match db.SetVersionTx p1 info dryRun with
          | (some e, p2) => (some e, p2)
          | (none, p2) => (none, p2)
  let durable : δ := if body.1 = none ∧ dryRun = false then body.2 else s
  let err : Option GoErr :=
    match body.1 with
    | none => none
    | some e =>
      if e.is ErrCancel then none
      else if dryRun then
        some (.wrap ("txf dry run " ++ info.From.str ++ " to " ++ info.To.str) e)
      else some (.wrap ("txf " ++ info.From.str ++ " to " ++ info.To.str) e)
  (err, durable)

/-- Replay of a sequence of `Append` calls (name, up, down) on a registry,
stopping at the first error, as a caller of `Steps.Append` would. -/
def appendEntries (sha : List Nat → List Nat) (s : Steps σ) :
    List (String × Option (StepFunc σ) × Option (StepFunc σ)) →
      Except GoErr (Steps σ)
  | [] => .ok s
  | x :: rest =>
    match s.Append sha x.1 x.2.1 x.2.2 with
    | .error err => .error err
    | .ok s1 => appendEntries sha s1 rest

/-- Modelled from the spec sentence defining the checksum chain, for the
refinement comparison of claim C1: starting below a step with checksum `c`
at index `i-1`, the version of step `i` carrying `name` has checksum
`SHA256(c ++ little-endian-uint64(i) ++ name)`. -/
def specChain (sha : List Nat → List Nat) (c : List Nat) (i : Nat) :
    List String → List Version
  | [] => []
  | n :: ns =>
    let c1 := sha (c ++ le64 i ++ strBytes n)
    { ID := (i : Int), Checksum := c1 } :: specChain sha c1 (i + 1) ns

/-- Modelled from the spec sentence defining the checksum chain, for the
refinement comparison of claim C1: the full version list of a registry with
root name `root` and appended step names `names` — the anchor version
`SHA256(rootName)` at index 0 followed by the chained checksums. -/
def specVersions (sha : List Nat → List Nat) (root : String)
    (names : List String) : List Version :=
  { ID := 0, Checksum := sha (strBytes root) } ::
    specChain sha (sha (strBytes root)) 1 names

/-! Concrete objects used by the witness and counterexample theorems.  The
digest parameter is universally quantified in every claim theorem, so any
concrete function instantiates them; `sha0` prefixes a byte to keep digests
of different inputs distinct. -/

/-- Concrete digest function for witnesses. -/
def sha0 : List Nat → List Nat := fun b => 0 :: b

/-- The anchor version of the two-step witness registry. -/
def wv0 : Version := { ID := 0, Checksum := sha0 (strBytes "db") }

/-- The version of step 1 of the witness registry. -/
def wv1 : Version :=
  { ID := 1, Checksum := sha0 (sha0 (strBytes "db") ++ le64 1 ++ strBytes "a") }

/-- A concrete two-step registry (anchor "db", one step "a" with nil
operations), as built by `NewSteps` + `Append`. -/
def steps2 (σ : Type) : Steps σ :=
  { steps := [{ name := "db", up := none, down := none, version := wv0 },
              { name := "a", up := none, down := none, version := wv1 }],
    IDs := rfl }

/-- A concrete database at version `wv0` whose operations all succeed. -/
def dbOk : Database Unit :=
  { InitVersion := fun s _ _ => (none, s),
    Version := fun s => (.ok wv0, s),
    DefaultStepFunc := fun s _ _ => (none, s) }

/-- A concrete database whose step operation always fails. -/
def dbFailStep : Database Unit :=
  { InitVersion := fun s _ _ => (none, s),
    Version := fun s => (.ok wv0, s),
    DefaultStepFunc := fun s _ _ => (some (.msg "step failed"), s) }

/-- A concrete database whose version read always fails. -/
def dbDown : Database Unit :=
  { InitVersion := fun s _ _ => (none, s),
    Version := fun s => (.error (.msg "connection refused"), s),
    DefaultStepFunc := fun s _ _ => (none, s) }

/-- A concrete database over a `Nat` step-counter state: the default step
operation increments the counter unless this is a dry run, and reads leave
the state alone. -/
def dbCount : Database Nat :=
  { InitVersion := fun s _ _ => (none, s),
    Version := fun s => (.ok wv0, s),
    DefaultStepFunc := fun s _ dryRun => (none, if dryRun then s else s + 1) }

/-- A concrete always-failing custom step operation. -/
def failF : StepFunc Unit := fun s _ _ => (some (.msg "custom failed"), s)

/-- The concrete two-step registry with `failF` as the custom up and down
operation of step 1. -/
def steps2C : Steps Unit :=
  { steps := [{ name := "db", up := none, down := none, version := wv0 },
              { name := "a", up := some failF, down := some failF,
                version := wv1 }],
    IDs := rfl }

/-- A concrete transactional database whose state is exactly its version
row: reads return the state, and the conditional update replaces it by
`info.To` when it equals `info.From`. -/
def txdbV : TxDB Version :=
  { VersionTx := fun p => .ok p,
    SetVersionTx := fun p info _ =>
      if p = info.From then (none, info.To) else (some ErrBadVersion, p) }

/-- A concrete transactional callback that cancels the step. -/
def cancelF : TxFunc Version := fun p _ _ => (some ErrCancel, p)

/-- A concrete transactional callback that aborts the step. -/
def abortF : TxFunc Version := fun p _ _ => (some ErrAbort, p)

/-- A concrete version-update function that fails if ever invoked (used to
witness that the cancelled step never executes `SetVersionTx`). -/
def svPoison : Version → StepInfo → Bool → Option GoErr × Version :=
  fun p _ _ => (some (.msg "unreachable"), p)

/-- The step info of the witness step `wv0 -> wv1`. -/
def infoW : StepInfo := { name := "a", From := wv0, To := wv1 }

/-- Whether an error carries any `fmt.Errorf` wrapping context at all (used
to state that an error was returned bare, not wrapped with an operation
name). -/
def isWrapped : GoErr → Bool
  | .wrap _ _ => true
  | .wrap2 _ _ _ => true
  | _ => false

/-! ### Helper lemmas shared by the claim theorems -/

theorem GoErr.is_self (e : GoErr) : e.is e = true := by
  cases e <;> simp [GoErr.is]

theorem GoErr.is_wrap (c : String) (e t : GoErr) (h : e.is t = true) :
    (GoErr.wrap c e).is t = true := by
  simp [GoErr.is, h]

theorem GoErr.is_wrap2a (c : String) (a b t : GoErr) (h : a.is t = true) :
    (GoErr.wrap2 c a b).is t = true := by
  simp [GoErr.is, h]

theorem Steps.ID_at_cast (s : Steps σ) (i : Nat) (h : i < s.steps.length) :
    (s.stepAt i).version.ID = (i : Int) := s.ID_at i h

theorem Steps.stepAt_getElem (s : Steps σ) (i : Nat) (h : i < s.steps.length) :
    s.stepAt i = s.steps[i] := by
  unfold Steps.stepAt
  rw [List.getD_eq_getElem?_getD, List.getElem?_eq_getElem h]
  rfl

theorem Steps.stepAt_mem (s : Steps σ) (i : Nat) (h : i < s.steps.length) :
    s.stepAt i ∈ s.steps := by
  rw [s.stepAt_getElem i h]
  exact List.getElem_mem h

theorem getD_append_singleton (l : List α) (x d : α) :
    (l ++ [x]).getD l.length d = x := by
  rw [List.getD_eq_getElem?_getD, List.getElem?_append_right (le_refl _)]
  simp

theorem Steps.check_none_intro (s : Steps σ) (v : Version) (h0 : 0 ≤ v.ID)
    (h1 : v.ID < (s.steps.length : Int))
    (h2 : (s.stepAt v.ID.toNat).version = v) : s.check v = none := by
  unfold Steps.check Steps.checkID
  rw [if_neg (by omega)]
  simp [h2]

/-- Characterisation of a successful `Steps.Up`. -/
theorem Steps.Up_ok (s : Steps σ) (v : Version) (info : StepInfo)
    (f : Option (StepFunc σ)) (h : s.Up v = .ok (info, f)) :
    s.check v = none ∧ 0 ≤ v.ID ∧ v.ID.toNat + 1 < s.steps.length ∧
      info = { name := (s.stepAt (v.ID.toNat + 1)).name,
               From := (s.stepAt v.ID.toNat).version,
               To := (s.stepAt (v.ID.toNat + 1)).version } ∧
      f = (s.stepAt (v.ID.toNat + 1)).up := by
  unfold Steps.Up at h
  rcases hc : s.check v with _ | e <;> rw [hc] at h
  · by_cases hlast : v.ID = (s.steps.length : Int) - 1
    · rw [if_pos hlast] at h; cases h
    · rw [if_neg hlast] at h
      obtain ⟨h0, hlt, _⟩ := s.check_none v hc
      simp only [Except.ok.injEq, Prod.mk.injEq] at h
      exact ⟨rfl, h0, by omega, h.1.symm, h.2.symm⟩
  · cases h

/-- Characterisation of a successful `Steps.Down`. -/
theorem Steps.Down_ok (s : Steps σ) (v : Version) (info : StepInfo)
    (f : Option (StepFunc σ)) (h : s.Down v = .ok (info, f)) :
    s.check v = none ∧ 0 < v.ID ∧ v.ID.toNat < s.steps.length ∧
      info = { name := (s.stepAt v.ID.toNat).name,
               From := (s.stepAt v.ID.toNat).version,
               To := (s.stepAt (v.ID.toNat - 1)).version } ∧
      f = (s.stepAt v.ID.toNat).down := by
  unfold Steps.Down at h
  rcases hc : s.check v with _ | e <;> rw [hc] at h
  · by_cases hzero : v.ID = 0
    · rw [if_pos hzero] at h; cases h
    · rw [if_neg hzero] at h
      obtain ⟨h0, hlt, _⟩ := s.check_none v hc
      simp only [Except.ok.injEq, Prod.mk.injEq] at h
      exact ⟨rfl, by omega, by omega, h.1.symm, h.2.symm⟩
  · cases h

/-- The value returned by `versionCtx` depends only on the database and the
registry, never on the incoming cached version. -/
theorem Migrator.versionCtx_val (m m2 : Migrator σ) (s : σ)
    (hdb : m2.db = m.db) (hst : m2.steps = m.steps) :
    (m2.versionCtx s).1 = (m.versionCtx s).1 := by
  unfold Migrator.versionCtx
  rw [hdb, hst]

/-- An error escaping the `TxF` callback loop never satisfies
`errors.Is(err, ErrCancel)` (such errors continue the loop instead). -/
theorem runTxFuncs_not_cancel (info : StepInfo) (dry : Bool) :
    ∀ (fs : List (TxFunc δ)) (p : δ) (c : Bool) (e : GoErr) (p1 : δ) (c1 : Bool),
      runTxFuncs fs p info dry c = (some e, p1, c1) → e.is ErrCancel = false := by
  intro fs
  induction fs with
  | nil => intro p c e p1 c1 h; simp [runTxFuncs] at h
  | cons f rest ih =>
    intro p c e p1 c1 h
    unfold runTxFuncs at h
    split at h
    · exact ih _ _ _ _ _ h
    · split at h
      · exact ih _ _ _ _ _ h
      · rename_i hnc
        simp only [Prod.mk.injEq, Option.some.injEq] at h
        rw [← h.1]
        simpa using hnc

/-- Auxiliary induction for claim C1: replaying `Append` entries with
nonempty names from any registry succeeds, and the resulting version list
extends the old one by the spec-side chain seeded with the previous last
checksum and the previous length as the next index. -/
theorem appendEntries_spec (sha : List Nat → List Nat)
    (entries : List (String × Option (StepFunc σ) × Option (StepFunc σ))) :
    ∀ s : Steps σ, (∀ x ∈ entries, x.1 ≠ "") →
      ∃ s2, appendEntries sha s entries = .ok s2 ∧
        s2.steps.map (fun st => st.version) =
          s.steps.map (fun st => st.version) ++
            specChain sha ((s.stepAt (s.steps.length - 1)).version.Checksum)
              s.steps.length (entries.map (fun x => x.1)) := by
  induction entries with
  | nil =>
    intro s _
    exact ⟨s, rfl, by simp [specChain]⟩
  | cons x rest ih =>
    intro s hne
    have hx : x.1 ≠ "" := hne x (List.mem_cons_self x rest)
    have happ : ∃ s1, s.Append sha x.1 x.2.1 x.2.2 = .ok s1 ∧
        s1.steps = s.steps ++ [Step.mk x.1 x.2.1 x.2.2
          (Version.mk (s.steps.length : Int)
            (sha ((s.stepAt (s.steps.length - 1)).version.Checksum
              ++ le64 s.steps.length ++ strBytes x.1)))] := by
      unfold Steps.Append
      rw [if_neg hx]
      exact ⟨_, rfl, rfl⟩
    obtain ⟨s1, hs1, hsteps1⟩ := happ
    obtain ⟨s2, hs2, hmap⟩ := ih s1 (fun y hy => hne y (List.mem_cons_of_mem _ hy))
    refine ⟨s2, ?_, ?_⟩
    · unfold appendEntries
      rw [hs1]
      exact hs2
    · rw [hmap]
      simp only [Steps.stepAt, hsteps1, List.length_append, List.length_cons,
        List.length_nil, Nat.add_sub_cancel]
      rw [getD_append_singleton]
      simp [specChain, List.append_assoc]

/-- C1: for every registry built with `NewSteps(rootName)` followed by any
sequence of successful `Append(name, up, down)` calls, the version of step 0
has checksum `sha(rootName)` and the version of step `i >= 1` has identifier
`i` and checksum `sha(checksum_(i-1) ++ le64(i) ++ name_i)` — stated as: the
version list equals the spec-side chain `specVersions`, a pure function of
the root name and the appended names, which also gives that replaying the
same name sequence yields bit-identical versions. -/
theorem C1_checksum_chain (sha : List Nat → List Nat) (root : String)
    (entries : List (String × Option (StepFunc σ) × Option (StepFunc σ)))
    (hne : ∀ x ∈ entries, x.1 ≠ "") :
    ∃ s : Steps σ, appendEntries sha (NewSteps sha root) entries = .ok s ∧
      s.steps.map (fun st => st.version) =
        specVersions sha root (entries.map (fun x => x.1)) := by
  obtain ⟨s2, h1, h2⟩ := appendEntries_spec sha entries (NewSteps sha root) hne
  refine ⟨s2, h1, ?_⟩
  rw [h2]
  simp [NewSteps, specVersions, Steps.stepAt]

/-- Witness for C1 at the concrete registry `NewSteps "db"` +
`Append "a"`. -/
theorem C1_checksum_chain_witness :
    ∃ s : Steps Unit,
      appendEntries sha0 (NewSteps sha0 "db") [("a", none, none)] = .ok s ∧
      s.steps.map (fun st => st.version) = specVersions sha0 "db" ["a"]
    :=
  C1_checksum_chain sha0 "db" [("a", none, none)] (by decide)

/-- C2: boundary and validation errors of the step registry.  Out-of-range
identifiers make `VersionAt` (Go `Steps.Version`), `Name` and `Check` fail
with an error wrapping `ErrBadVersionID`; an in-range version whose checksum
differs from the stored one makes `Check` fail with an error wrapping
`ErrBadVersionChecksum`; `Down` at a valid version with id 0, and `Up` at a
valid version with the last id, fail with an error wrapping
`ErrEndOfSteps`. -/
theorem C2_boundary_errors (s : Steps σ) :
    (∀ id : Int, (id < 0 ∨ (s.steps.length : Int) ≤ id) →
      (∃ e, s.VersionAt id = .error e ∧ e.is ErrBadVersionID = true) ∧
      (∃ e, s.Name id = .error e ∧ e.is ErrBadVersionID = true) ∧
      (∀ v : Version, v.ID = id →
        ∃ e, s.Check v = some e ∧ e.is ErrBadVersionID = true)) ∧
    (∀ v : Version, 0 ≤ v.ID → v.ID < (s.steps.length : Int) →
      v.Checksum ≠ (s.stepAt v.ID.toNat).version.Checksum →
      ∃ e, s.Check v = some e ∧ e.is ErrBadVersionChecksum = true) ∧
    (∀ v : Version, s.Check v = none → v.ID = 0 →
      ∃ e, s.Down v = .error e ∧ e.is ErrEndOfSteps = true) ∧
    (∀ v : Version, s.Check v = none → v.ID = (s.steps.length : Int) - 1 →
      ∃ e, s.Up v = .error e ∧ e.is ErrEndOfSteps = true) := by
  have hid : ∀ id : Int, (id < 0 ∨ (s.steps.length : Int) ≤ id) →
      s.checkID id = some (.wrap ("id " ++ toString id) ErrBadVersionID) := by
    intro id h
    unfold Steps.checkID
    rw [if_pos h]
  refine ⟨?_, ?_, ?_, ?_⟩
  · intro id h
    refine ⟨⟨.wrap ("id " ++ toString id) ErrBadVersionID, ?_,
        GoErr.is_wrap _ _ _ (GoErr.is_self _)⟩,
      ⟨.wrap ("id " ++ toString id) ErrBadVersionID, ?_,
        GoErr.is_wrap _ _ _ (GoErr.is_self _)⟩, ?_⟩
    · unfold Steps.VersionAt
      rw [hid id h]
    · unfold Steps.Name
      rw [hid id h]
    · intro v hv
      refine ⟨.wrap ("id " ++ toString id) ErrBadVersionID, ?_,
        GoErr.is_wrap _ _ _ (GoErr.is_self _)⟩
      unfold Steps.Check Steps.check
      rw [hv, hid id h]
  · intro v h0 h1 hne
    refine ⟨.wrap "expect, got" ErrBadVersionChecksum, ?_,
      GoErr.is_wrap _ _ _ (GoErr.is_self _)⟩
    unfold Steps.Check Steps.check Steps.checkID
    rw [if_neg (by omega)]
    rw [if_pos (fun heq => hne (congrArg Version.Checksum heq).symm)]
  · intro v hchk h0
    refine ⟨.wrap v.str ErrEndOfSteps, ?_,
      GoErr.is_wrap _ _ _ (GoErr.is_self _)⟩
    unfold Steps.Down
    rw [show s.check v = none from hchk, if_pos h0]
  · intro v hchk hlast
    refine ⟨.wrap v.str ErrEndOfSteps, ?_,
      GoErr.is_wrap _ _ _ (GoErr.is_self _)⟩
    unfold Steps.Up
    rw [show s.check v = none from hchk, if_pos hlast]

/-- Witness for C2 on the concrete two-step registry: id 5 is out of range,
a version with id 0 and checksum `[9]` mismatches, `Down` at the anchor and
`Up` at the last version hit the ends. -/
theorem C2_boundary_errors_witness :
    (∃ e, (steps2 Unit).VersionAt 5 = .error e ∧ e.is ErrBadVersionID = true) ∧
    (∃ e, (steps2 Unit).Check (Version.mk 0 [9]) = some e ∧
      e.is ErrBadVersionChecksum = true) ∧
    (∃ e, (steps2 Unit).Down wv0 = .error e ∧ e.is ErrEndOfSteps = true) ∧
    (∃ e, (steps2 Unit).Up wv1 = .error e ∧ e.is ErrEndOfSteps = true) :=
  ⟨((C2_boundary_errors (steps2 Unit)).1 5 (by decide)).1,
   (C2_boundary_errors (steps2 Unit)).2.1 (Version.mk 0 [9]) (by decide)
     (by decide) (by decide),
   (C2_boundary_errors (steps2 Unit)).2.2.1 wv0 (by decide) (by decide),
   (C2_boundary_errors (steps2 Unit)).2.2.2 wv1 (by decide) (by decide)⟩

/-- C7: round trip.  For every registry and every valid non-terminal version
`v` (checksum matching, id below the last index), `Up v` succeeds with a step
info whose `From` is `v` and whose `To` is the registry version at index
`v.ID + 1`, and `Down` applied to that resulting version succeeds with a step
info whose `To` equals the original `v`. -/
theorem C7_round_trip (s : Steps σ) (v : Version) (hchk : s.Check v = none)
    (hnt : v.ID < (s.steps.length : Int) - 1) :
    ∃ info f info2 g,
      s.Up v = .ok (info, f) ∧ info.From = v ∧
      info.To = (s.stepAt (v.ID.toNat + 1)).version ∧
      s.Down info.To = .ok (info2, g) ∧ info2.To = v := by
  have hc : s.check v = none := hchk
  obtain ⟨h0, hlt, hv⟩ := s.check_none v hc
  have hlast : v.ID ≠ (s.steps.length : Int) - 1 := by omega
  have hup : s.Up v = .ok
      ({ name := (s.stepAt (v.ID.toNat + 1)).name,
         From := (s.stepAt v.ID.toNat).version,
         To := (s.stepAt (v.ID.toNat + 1)).version },
        (s.stepAt (v.ID.toNat + 1)).up) := by
    unfold Steps.Up
    rw [hc, if_neg hlast]
  have hbound : v.ID.toNat + 1 < s.steps.length := by omega
  have hID := s.ID_at_cast (v.ID.toNat + 1) hbound
  have hcd : s.check (s.stepAt (v.ID.toNat + 1)).version = none := by
    apply s.check_none_intro
    · rw [hID]
      omega
    · rw [hID]
      omega
    · rw [hID]
      rfl
  have hnz : (s.stepAt (v.ID.toNat + 1)).version.ID ≠ 0 := by
    rw [hID]
    omega
  refine ⟨_, _,
    { name := (s.stepAt (s.stepAt (v.ID.toNat + 1)).version.ID.toNat).name,
      From := (s.stepAt (s.stepAt (v.ID.toNat + 1)).version.ID.toNat).version,
      To := (s.stepAt ((s.stepAt (v.ID.toNat + 1)).version.ID.toNat - 1)).version },
    (s.stepAt (s.stepAt (v.ID.toNat + 1)).version.ID.toNat).down,
    hup, hv, rfl, ?_, ?_⟩
  · unfold Steps.Down
    rw [hcd, if_neg hnz]
  · have htn : (s.stepAt (v.ID.toNat + 1)).version.ID.toNat = v.ID.toNat + 1 := by
      rw [hID]
      omega
    simp only [htn, Nat.add_sub_cancel]
    exact hv

/-- Witness for C7 at the anchor version of the concrete two-step
registry. -/
theorem C7_round_trip_witness :
    ∃ info f info2 g,
      (steps2 Unit).Up wv0 = .ok (info, f) ∧ info.From = wv0 ∧
      info.To = ((steps2 Unit).stepAt (wv0.ID.toNat + 1)).version ∧
      (steps2 Unit).Down info.To = .ok (info2, g) ∧ info2.To = wv0 :=
  C7_round_trip (steps2 Unit) wv0 (by decide) (by decide)

/-- C9 counterexample: `Append` with an empty name returns the plain
formatted error "append step: name is empty", which does not wrap the
`ErrBadParameters` sentinel — `errors.Is` on it is false. -/
theorem C9_counterexample :
    (steps2 Unit).Append sha0 "" none none =
      .error (.msg "append step: name is empty") ∧
    (GoErr.msg "append step: name is empty").is ErrBadParameters = false :=
  ⟨rfl, by decide⟩

/-- C9 amended: `Steps.Append` called with an empty name fails with the
plain error "append step: name is empty" (not wrapping `ErrBadParameters`)
and returns before mutating the registry, leaving it unchanged (in this
model the error case produces no updated registry). -/
theorem C9_amended (sha : List Nat → List Nat) (s : Steps σ)
    (up down : Option (StepFunc σ)) :
    s.Append sha "" up down = .error (.msg "append step: name is empty") ∧
    (GoErr.msg "append step: name is empty").is ErrBadParameters = false := by
  constructor
  · unfold Steps.Append
    rw [if_pos rfl]
  · decide

/-- C3: if the step operation invoked by `oneUp`/`oneDown` (the custom
function when present, else the database default) returns an error, the
public `OneUp`/`OneDown` return that error wrapped with the operation name
and leave the Migrator — in particular its cached version, which is what a
subsequent report is served from — exactly as before the call. -/
theorem C3_failure_keeps_cache (m : Migrator σ) (s : σ) :
    (∀ info e s1, m.steps.Up m.cachedVersion = .ok (info, none) →
      m.db.DefaultStepFunc s info false = (some e, s1) →
      m.OneUpCtx s = (some (.wrap "one up" e), m, s1)) ∧
    (∀ info f e s1, m.steps.Up m.cachedVersion = .ok (info, some f) →
      f s info false = (some e, s1) →
      m.OneUpCtx s = (some (.wrap "one up" e), m, s1)) ∧
    (∀ info e s1, m.steps.Down m.cachedVersion = .ok (info, none) →
      m.db.DefaultStepFunc s info false = (some e, s1) →
      m.OneDownCtx s = (some (.wrap "one down" e), m, s1)) ∧
    (∀ info f e s1, m.steps.Down m.cachedVersion = .ok (info, some f) →
      f s info false = (some e, s1) →
      m.OneDownCtx s = (some (.wrap "one down" e), m, s1)) := by
  refine ⟨?_, ?_, ?_, ?_⟩
  · intro info e s1 hup hop
    have h1 : m.oneUp s false = (some e, m, s1) := by
      unfold Migrator.oneUp
      rw [hup]
      simp only [hop]
    unfold Migrator.OneUpCtx
    rw [h1]
  · intro info f e s1 hup hop
    have h1 : m.oneUp s false = (some e, m, s1) := by
      unfold Migrator.oneUp
      rw [hup]
      simp only [hop]
    unfold Migrator.OneUpCtx
    rw [h1]
  · intro info e s1 hdown hop
    have h1 : m.oneDown s false = (some e, m, s1) := by
      unfold Migrator.oneDown
      rw [hdown]
      simp only [hop]
    unfold Migrator.OneDownCtx
    rw [h1]
  · intro info f e s1 hdown hop
    have h1 : m.oneDown s false = (some e, m, s1) := by
      unfold Migrator.oneDown
      rw [hdown]
      simp only [hop]
    unfold Migrator.OneDownCtx
    rw [h1]

/-- Witness for C3: concrete migrators over the failing database (nil step
operations) and over the registry with failing custom operations, one step
up from the anchor and one step down from the last version. -/
theorem C3_failure_keeps_cache_witness :
    (Migrator.mk dbFailStep (steps2 Unit) wv0).OneUpCtx () =
      (some (.wrap "one up" (.msg "step failed")),
        Migrator.mk dbFailStep (steps2 Unit) wv0, ()) ∧
    (Migrator.mk dbOk steps2C wv0).OneUpCtx () =
      (some (.wrap "one up" (.msg "custom failed")),
        Migrator.mk dbOk steps2C wv0, ()) ∧
    (Migrator.mk dbFailStep (steps2 Unit) wv1).OneDownCtx () =
      (some (.wrap "one down" (.msg "step failed")),
        Migrator.mk dbFailStep (steps2 Unit) wv1, ()) ∧
    (Migrator.mk dbOk steps2C wv1).OneDownCtx () =
      (some (.wrap "one down" (.msg "custom failed")),
        Migrator.mk dbOk steps2C wv1, ()) :=
  ⟨(C3_failure_keeps_cache (Migrator.mk dbFailStep (steps2 Unit) wv0) ()).1
      (StepInfo.mk "a" wv0 wv1) (.msg "step failed") () rfl rfl,
   (C3_failure_keeps_cache (Migrator.mk dbOk steps2C wv0) ()).2.1
      (StepInfo.mk "a" wv0 wv1) failF (.msg "custom failed") () rfl rfl,
   (C3_failure_keeps_cache (Migrator.mk dbFailStep (steps2 Unit) wv1) ()).2.2.1
      (StepInfo.mk "a" wv1 wv0) (.msg "step failed") () rfl rfl,
   (C3_failure_keeps_cache (Migrator.mk dbOk steps2C wv1) ()).2.2.2
      (StepInfo.mk "a" wv1 wv0) failF (.msg "custom failed") () rfl rfl⟩

/-- C10 counterexample: on a freshly created Migrator, `OneUp` fails with an
error wrapping `ErrBadVersion`, but `ErrBadVersionID` is NOT in the wrap
chain — `Steps.Up` discards the id-check error and only formats it into the
message (`fmt.Errorf("%w: %v", ErrBadVersion, v)`). -/
theorem C10_counterexample :
    ((New dbOk (steps2 Unit)).OneUpCtx ()).1 =
      some (.wrap "one up" (.wrap badVersion.str ErrBadVersion)) ∧
    (GoErr.wrap "one up" (.wrap badVersion.str ErrBadVersion)).is
      ErrBadVersion = true ∧
    (GoErr.wrap "one up" (.wrap badVersion.str ErrBadVersion)).is
      ErrBadVersionID = false :=
  ⟨rfl, by decide, by decide⟩

/-- C10 amended: `New` returns a Migrator whose cached version is the bad
sentinel (id -1); while the cached version is the bad sentinel, `OneUp`,
`OneDown` and their dry-run variants fail with an error wrapping
`ErrBadVersion` only (the underlying id-check failure appears in the message
but is not wrapped), without invoking any database operation — the migrator
and the database state are returned unchanged — until a successful `Version`
or `Init` call replaces the cached version. -/
theorem C10_amended (db : Database σ) (st : Steps σ) (s : σ) :
    (New db st).cachedVersion = badVersion ∧
    (∀ m : Migrator σ, m.cachedVersion = badVersion →
      m.OneUpCtx s =
        (some (.wrap "one up" (.wrap badVersion.str ErrBadVersion)), m, s) ∧
      m.OneDownCtx s =
        (some (.wrap "one down" (.wrap badVersion.str ErrBadVersion)), m, s) ∧
      m.OneUpDryRunCtx s =
        (some (.wrap "one up dry run" (.wrap badVersion.str ErrBadVersion)),
          m, s) ∧
      m.OneDownDryRunCtx s =
        (some (.wrap "one down dry run" (.wrap badVersion.str ErrBadVersion)),
          m, s)) ∧
    (GoErr.wrap badVersion.str ErrBadVersion).is ErrBadVersion = true := by
  refine ⟨rfl, ?_, by decide⟩
  intro m hm
  have hcheck : m.steps.check badVersion =
      some (.wrap ("id " ++ toString badVersion.ID) ErrBadVersionID) := by
    unfold Steps.check Steps.checkID
    rw [if_pos (Or.inl (by decide))]
  have hupE : m.steps.Up badVersion =
      .error (.wrap badVersion.str ErrBadVersion) := by
    unfold Steps.Up
    rw [hcheck]
  have hdownE : m.steps.Down badVersion =
      .error (.wrap badVersion.str ErrBadVersion) := by
    unfold Steps.Down
    rw [hcheck]
  have hu : ∀ d : Bool, m.oneUp s d =
      (some (.wrap badVersion.str ErrBadVersion), m, s) := by
    intro d
    unfold Migrator.oneUp
    rw [hm, hupE]
  have hd : ∀ d : Bool, m.oneDown s d =
      (some (.wrap badVersion.str ErrBadVersion), m, s) := by
    intro d
    unfold Migrator.oneDown
    rw [hm, hdownE]
  refine ⟨?_, ?_, ?_, ?_⟩
  · unfold Migrator.OneUpCtx
    rw [hu false]
  · unfold Migrator.OneDownCtx
    rw [hd false]
  · unfold Migrator.OneUpDryRunCtx
    rw [hu true]
  · unfold Migrator.OneDownDryRunCtx
    rw [hd true]

/-- Witness for C10 at the freshly created concrete migrator. -/
theorem C10_amended_witness :
    (New dbOk (steps2 Unit)).OneUpCtx () =
      (some (.wrap "one up" (.wrap badVersion.str ErrBadVersion)),
        New dbOk (steps2 Unit), ()) ∧
    (New dbOk (steps2 Unit)).OneDownCtx () =
      (some (.wrap "one down" (.wrap badVersion.str ErrBadVersion)),
        New dbOk (steps2 Unit), ()) ∧
    (New dbOk (steps2 Unit)).OneUpDryRunCtx () =
      (some (.wrap "one up dry run" (.wrap badVersion.str ErrBadVersion)),
        New dbOk (steps2 Unit), ()) ∧
    (New dbOk (steps2 Unit)).OneDownDryRunCtx () =
      (some (.wrap "one down dry run" (.wrap badVersion.str ErrBadVersion)),
        New dbOk (steps2 Unit), ()) :=
  (C10_amended dbOk (steps2 Unit) ()).2.1 (New dbOk (steps2 Unit)) rfl

/-- C6: `AllUp`/`AllDown` repeat the one-step migration, converting an
`ErrEndOfSteps` failure into a nil return with the state reached so far; any
other failure stops the loop immediately and is returned wrapped with the
operation name, retaining the state produced by the steps that already
succeeded (the recursion carries the updated migrator and database state);
`OneUp`/`OneDown` instead surface `ErrEndOfSteps` as an error. -/
theorem C6_end_of_steps (m : Migrator σ) (s : σ) :
    (∀ e m1 s1, m.oneUp s false = (some e, m1, s1) →
      e.is ErrEndOfSteps = true → m.AllUpCtx s = (none, m1, s1)) ∧
    (∀ e m1 s1, m.oneUp s false = (some e, m1, s1) →
      e.is ErrEndOfSteps = false →
      m.AllUpCtx s = (some (.wrap "all up" e), m1, s1)) ∧
    (∀ m1 s1, m.oneUp s false = (none, m1, s1) →
      m.AllUpCtx s = m1.AllUpCtx s1) ∧
    (∀ e m1 s1, m.oneDown s false = (some e, m1, s1) →
      e.is ErrEndOfSteps = true → m.AllDownCtx s = (none, m1, s1)) ∧
    (∀ e m1 s1, m.oneDown s false = (some e, m1, s1) →
      e.is ErrEndOfSteps = false →
      m.AllDownCtx s = (some (.wrap "all down" e), m1, s1)) ∧
    (∀ m1 s1, m.oneDown s false = (none, m1, s1) →
      m.AllDownCtx s = m1.AllDownCtx s1) ∧
    (∀ e m1 s1, m.oneUp s false = (some e, m1, s1) →
      e.is ErrEndOfSteps = true →
      ∃ e2, m.OneUpCtx s = (some e2, m1, s1) ∧ e2.is ErrEndOfSteps = true) ∧
    (∀ e m1 s1, m.oneDown s false = (some e, m1, s1) →
      e.is ErrEndOfSteps = true →
      ∃ e2, m.OneDownCtx s = (some e2, m1, s1) ∧
        e2.is ErrEndOfSteps = true) := by
  refine ⟨?_, ?_, ?_, ?_, ?_, ?_, ?_, ?_⟩
  · intro e m1 s1 h hend
    rw [Migrator.AllUpCtx.eq_def, h]
    simp [hend]
  · intro e m1 s1 h hend
    rw [Migrator.AllUpCtx.eq_def, h]
    simp [hend]
  · intro m1 s1 h
    rw [Migrator.AllUpCtx.eq_def, h]
  · intro e m1 s1 h hend
    rw [Migrator.AllDownCtx.eq_def, h]
    simp [hend]
  · intro e m1 s1 h hend
    rw [Migrator.AllDownCtx.eq_def, h]
    simp [hend]
  · intro m1 s1 h
    rw [Migrator.AllDownCtx.eq_def, h]
  · intro e m1 s1 h hend
    refine ⟨.wrap "one up" e, ?_, GoErr.is_wrap _ _ _ hend⟩
    unfold Migrator.OneUpCtx
    rw [h]
  · intro e m1 s1 h hend
    refine ⟨.wrap "one down" e, ?_, GoErr.is_wrap _ _ _ hend⟩
    unfold Migrator.OneDownCtx
    rw [h]

/-- Witness for C6: end-of-chain, failing-step and successful-step concrete
migrators for both directions. -/
theorem C6_end_of_steps_witness :
    (Migrator.mk dbOk (steps2 Unit) wv1).AllUpCtx () =
      (none, Migrator.mk dbOk (steps2 Unit) wv1, ()) ∧
    (Migrator.mk dbFailStep (steps2 Unit) wv0).AllUpCtx () =
      (some (.wrap "all up" (.msg "step failed")),
        Migrator.mk dbFailStep (steps2 Unit) wv0, ()) ∧
    (Migrator.mk dbOk (steps2 Unit) wv0).AllUpCtx () =
      (Migrator.mk dbOk (steps2 Unit) wv1).AllUpCtx () ∧
    (Migrator.mk dbOk (steps2 Unit) wv0).AllDownCtx () =
      (none, Migrator.mk dbOk (steps2 Unit) wv0, ()) ∧
    (Migrator.mk dbFailStep (steps2 Unit) wv1).AllDownCtx () =
      (some (.wrap "all down" (.msg "step failed")),
        Migrator.mk dbFailStep (steps2 Unit) wv1, ()) ∧
    (Migrator.mk dbOk (steps2 Unit) wv1).AllDownCtx () =
      (Migrator.mk dbOk (steps2 Unit) wv0).AllDownCtx () ∧
    (∃ e2, (Migrator.mk dbOk (steps2 Unit) wv1).OneUpCtx () =
      (some e2, Migrator.mk dbOk (steps2 Unit) wv1, ()) ∧
      e2.is ErrEndOfSteps = true) ∧
    (∃ e2, (Migrator.mk dbOk (steps2 Unit) wv0).OneDownCtx () =
      (some e2, Migrator.mk dbOk (steps2 Unit) wv0, ()) ∧
      e2.is ErrEndOfSteps = true) :=
  ⟨(C6_end_of_steps (Migrator.mk dbOk (steps2 Unit) wv1) ()).1
      (.wrap wv1.str ErrEndOfSteps) _ () rfl (by decide),
   (C6_end_of_steps (Migrator.mk dbFailStep (steps2 Unit) wv0) ()).2.1
      (.msg "step failed") _ () rfl (by decide),
   (C6_end_of_steps (Migrator.mk dbOk (steps2 Unit) wv0) ()).2.2.1
      (Migrator.mk dbOk (steps2 Unit) wv1) () rfl,
   (C6_end_of_steps (Migrator.mk dbOk (steps2 Unit) wv0) ()).2.2.2.1
      (.wrap wv0.str ErrEndOfSteps) _ () rfl (by decide),
   (C6_end_of_steps (Migrator.mk dbFailStep (steps2 Unit) wv1) ()).2.2.2.2.1
      (.msg "step failed") _ () rfl (by decide),
   (C6_end_of_steps (Migrator.mk dbOk (steps2 Unit) wv1) ()).2.2.2.2.2.1
      (Migrator.mk dbOk (steps2 Unit) wv0) () rfl,
   (C6_end_of_steps (Migrator.mk dbOk (steps2 Unit) wv1) ()).2.2.2.2.2.2.1
      (.wrap wv1.str ErrEndOfSteps) _ () rfl (by decide),
   (C6_end_of_steps (Migrator.mk dbOk (steps2 Unit) wv0) ()).2.2.2.2.2.2.2
      (.wrap wv0.str ErrEndOfSteps) _ () rfl (by decide)⟩

/-- C8 counterexample: a failure of the public `Version` method is the raw
database error, with no wrapping at all — in particular not wrapped with an
operation name. -/
theorem C8_counterexample :
    ((New dbDown (steps2 Unit)).VersionCtx ()).1.2 =
      some (.msg "connection refused") ∧
    isWrapped (.msg "connection refused") = false :=
  ⟨rfl, by decide⟩

/-- C8 amended: the one-step and all-step methods (`OneUp`, `OneDown`, their
dry-run variants, `AllUp`, `AllDown`) wrap every failure with the operation
name; `Version` propagates the underlying failure unwrapped; `Init` and
`InitDryRun` wrap failures with the `ErrAlreadyInitialized` or
`ErrNotInitialized` sentinels rather than an operation name. -/
theorem C8_amended (m : Migrator σ) (s : σ) :
    (∀ e m1 s1, m.oneUp s false = (some e, m1, s1) →
      m.OneUpCtx s = (some (.wrap "one up" e), m1, s1)) ∧
    (∀ e m1 s1, m.oneDown s false = (some e, m1, s1) →
      m.OneDownCtx s = (some (.wrap "one down" e), m1, s1)) ∧
    (∀ e m1 s1, m.oneUp s true = (some e, m1, s1) →
      m.OneUpDryRunCtx s = (some (.wrap "one up dry run" e), m1, s1)) ∧
    (∀ e m1 s1, m.oneDown s true = (some e, m1, s1) →
      m.OneDownDryRunCtx s = (some (.wrap "one down dry run" e), m1, s1)) ∧
    (∀ e m1 s1, m.oneUp s false = (some e, m1, s1) →
      e.is ErrEndOfSteps = false →
      m.AllUpCtx s = (some (.wrap "all up" e), m1, s1)) ∧
    (∀ e m1 s1, m.oneDown s false = (some e, m1, s1) →
      e.is ErrEndOfSteps = false →
      m.AllDownCtx s = (some (.wrap "all down" e), m1, s1)) ∧
    (∀ r m1 s1, m.versionCtx s = (r, m1, s1) →
      m.VersionCtx s = (r, m1, s1)) ∧
    (∀ dry e m1 s1, m.initCtx s dry = (some e, m1, s1) →
      e.is ErrAlreadyInitialized = true ∨ e.is ErrNotInitialized = true) := by
  refine ⟨?_, ?_, ?_, ?_, ?_, ?_, ?_, ?_⟩
  · intro e m1 s1 h
    unfold Migrator.OneUpCtx
    rw [h]
  · intro e m1 s1 h
    unfold Migrator.OneDownCtx
    rw [h]
  · intro e m1 s1 h
    unfold Migrator.OneUpDryRunCtx
    rw [h]
  · intro e m1 s1 h
    unfold Migrator.OneDownDryRunCtx
    rw [h]
  · intro e m1 s1 h hend
    rw [Migrator.AllUpCtx.eq_def, h]
    simp [hend]
  · intro e m1 s1 h hend
    rw [Migrator.AllDownCtx.eq_def, h]
    simp [hend]
  · intro r m1 s1 h
    unfold Migrator.VersionCtx
    exact h
  · intro dry e m1 s1 h
    unfold Migrator.initCtx at h
    split at h
    · simp only [Prod.mk.injEq, Option.some.injEq] at h
      left
      rw [← h.1]
      exact GoErr.is_wrap _ _ _ (GoErr.is_self _)
    · split at h
      · simp only [Prod.mk.injEq, Option.some.injEq] at h
        right
        rw [← h.1]
        exact GoErr.is_wrap2a _ _ _ _ (GoErr.is_self _)
      · split at h
        · simp only [Prod.mk.injEq, Option.some.injEq] at h
          right
          rw [← h.1]
          exact GoErr.is_wrap2a _ _ _ _ (GoErr.is_self _)
        · split at h <;> simp at h

/-- Witness for C8 at concrete migrators: failing step operations in all six
step methods, a raw propagated `Version` failure, and an
already-initialized `Init` failure. -/
theorem C8_amended_witness :
    (Migrator.mk dbFailStep (steps2 Unit) wv0).OneUpCtx () =
      (some (.wrap "one up" (.msg "step failed")),
        Migrator.mk dbFailStep (steps2 Unit) wv0, ()) ∧
    (Migrator.mk dbFailStep (steps2 Unit) wv1).OneDownCtx () =
      (some (.wrap "one down" (.msg "step failed")),
        Migrator.mk dbFailStep (steps2 Unit) wv1, ()) ∧
    (Migrator.mk dbFailStep (steps2 Unit) wv0).OneUpDryRunCtx () =
      (some (.wrap "one up dry run" (.msg "step failed")),
        Migrator.mk dbFailStep (steps2 Unit) wv0, ()) ∧
    (Migrator.mk dbFailStep (steps2 Unit) wv1).OneDownDryRunCtx () =
      (some (.wrap "one down dry run" (.msg "step failed")),
        Migrator.mk dbFailStep (steps2 Unit) wv1, ()) ∧
    (Migrator.mk dbFailStep (steps2 Unit) wv0).AllUpCtx () =
      (some (.wrap "all up" (.msg "step failed")),
        Migrator.mk dbFailStep (steps2 Unit) wv0, ()) ∧
    (Migrator.mk dbFailStep (steps2 Unit) wv1).AllDownCtx () =
      (some (.wrap "all down" (.msg "step failed")),
        Migrator.mk dbFailStep (steps2 Unit) wv1, ()) ∧
    (New dbDown (steps2 Unit)).VersionCtx () =
      ((badVersion, some (.msg "connection refused")),
        Migrator.mk dbDown (steps2 Unit) badVersion, ()) ∧
    ((GoErr.wrap ("as " ++ wv0.str) ErrAlreadyInitialized).is
        ErrAlreadyInitialized = true ∨
      (GoErr.wrap ("as " ++ wv0.str) ErrAlreadyInitialized).is
        ErrNotInitialized = true) :=
  ⟨(C8_amended (Migrator.mk dbFailStep (steps2 Unit) wv0) ()).1
      (.msg "step failed") _ () rfl,
   (C8_amended (Migrator.mk dbFailStep (steps2 Unit) wv1) ()).2.1
      (.msg "step failed") _ () rfl,
   (C8_amended (Migrator.mk dbFailStep (steps2 Unit) wv0) ()).2.2.1
      (.msg "step failed") _ () rfl,
   (C8_amended (Migrator.mk dbFailStep (steps2 Unit) wv1) ()).2.2.2.1
      (.msg "step failed") _ () rfl,
   (C8_amended (Migrator.mk dbFailStep (steps2 Unit) wv0) ()).2.2.2.2.1
      (.msg "step failed") _ () rfl (by decide),
   (C8_amended (Migrator.mk dbFailStep (steps2 Unit) wv1) ()).2.2.2.2.2.1
      (.msg "step failed") _ () rfl (by decide),
   (C8_amended (New dbDown (steps2 Unit)) ()).2.2.2.2.2.2.1
      (badVersion, some (.msg "connection refused")) _ () rfl,
   (C8_amended (New dbOk (steps2 Unit)) ()).2.2.2.2.2.2.2
      false (.wrap ("as " ++ wv0.str) ErrAlreadyInitialized)
      (Migrator.mk dbOk (steps2 Unit) wv0) () rfl⟩

/-- A dry `oneUp` never changes the migrator (in particular the cached
version), whatever the operation returns. -/
theorem Migrator.oneUp_dry (m : Migrator σ) (s : σ) :
    (m.oneUp s true).2.1 = m := by
  unfold Migrator.oneUp
  split
  · rfl
  · split
    · rename_i info upF heq
      rcases hr : m.db.DefaultStepFunc s info true with ⟨err, s2⟩
      rcases err with _ | e <;> rfl
    · rename_i info upF f heq
      rcases hr : f s info true with ⟨err, s2⟩
      rcases err with _ | e <;> rfl

/-- A dry `oneDown` never changes the migrator. -/
theorem Migrator.oneDown_dry (m : Migrator σ) (s : σ) :
    (m.oneDown s true).2.1 = m := by
  unfold Migrator.oneDown
  split
  · rfl
  · split
    · rename_i info downF heq
      rcases hr : m.db.DefaultStepFunc s info true with ⟨err, s2⟩
      rcases err with _ | e <;> rfl
    · rename_i info downF f heq
      rcases hr : f s info true with ⟨err, s2⟩
      rcases err with _ | e <;> rfl

/-- The migrator/state components of `OneUpDryRunCtx` are those of the
underlying dry `oneUp` (the wrapper only rewrites the error). -/
theorem Migrator.OneUpDryRunCtx_2 (m : Migrator σ) (s : σ) :
    (m.OneUpDryRunCtx s).2 = (m.oneUp s true).2 := by
  unfold Migrator.OneUpDryRunCtx
  split <;> rename_i heq <;> rw [heq]

/-- The migrator/state components of `OneDownDryRunCtx` are those of the
underlying dry `oneDown`. -/
theorem Migrator.OneDownDryRunCtx_2 (m : Migrator σ) (s : σ) :
    (m.OneDownDryRunCtx s).2 = (m.oneDown s true).2 := by
  unfold Migrator.OneDownDryRunCtx
  split <;> rename_i heq <;> rw [heq]

/-- If the database's step operations honour the dry-run contract (they
leave the database state unchanged when `dryRun` is true), a dry `oneUp`
leaves the database state unchanged. -/
theorem Migrator.oneUp_dry_state (m : Migrator σ) (s : σ)
    (hdb : ∀ t info, (m.db.DefaultStepFunc t info true).2 = t)
    (hups : ∀ st ∈ m.steps.steps, ∀ f, st.up = some f →
      ∀ t info, (f t info true).2 = t) :
    (m.oneUp s true).2.2 = s := by
  unfold Migrator.oneUp
  split
  · rfl
  · split
    · rename_i info upF heq
      rcases hr : m.db.DefaultStepFunc s info true with ⟨err, s2⟩
      have h2 : s2 = s := (congrArg Prod.snd hr).symm.trans (hdb s info)
      rcases err with _ | e <;> exact h2
    · rename_i info upF f heq
      obtain ⟨_, _, hbound, _, hf⟩ := m.steps.Up_ok _ _ _ heq
      have hpres := hups _ (m.steps.stepAt_mem _ hbound) f hf.symm
      rcases hr : f s info true with ⟨err, s2⟩
      have h2 : s2 = s := (congrArg Prod.snd hr).symm.trans (hpres s info)
      rcases err with _ | e <;> exact h2

/-- Symmetric to `oneUp_dry_state` for `oneDown`. -/
theorem Migrator.oneDown_dry_state (m : Migrator σ) (s : σ)
    (hdb : ∀ t info, (m.db.DefaultStepFunc t info true).2 = t)
    (hdowns : ∀ st ∈ m.steps.steps, ∀ f, st.down = some f →
      ∀ t info, (f t info true).2 = t) :
    (m.oneDown s true).2.2 = s := by
  unfold Migrator.oneDown
  split
  · rfl
  · split
    · rename_i info downF heq
      rcases hr : m.db.DefaultStepFunc s info true with ⟨err, s2⟩
      have h2 : s2 = s := (congrArg Prod.snd hr).symm.trans (hdb s info)
      rcases err with _ | e <;> exact h2
    · rename_i info downF f heq
      obtain ⟨_, _, hbound, _, hf⟩ := m.steps.Down_ok _ _ _ heq
      have hpres := hdowns _ (m.steps.stepAt_mem _ hbound) f hf.symm
      rcases hr : f s info true with ⟨err, s2⟩
      have h2 : s2 = s := (congrArg Prod.snd hr).symm.trans (hpres s info)
      rcases err with _ | e <;> exact h2

/-- If version reads leave the database state unchanged, `versionCtx`
returns the incoming state and a migrator with the same database and
registry. -/
theorem Migrator.versionCtx_frame (m : Migrator σ) (s : σ)
    (hread : ∀ t, (m.db.Version t).2 = t) :
    (m.versionCtx s).2.2 = s ∧ (m.versionCtx s).2.1.db = m.db ∧
      (m.versionCtx s).2.1.steps = m.steps := by
  unfold Migrator.versionCtx
  split
  · rename_i e s1 heq
    refine ⟨?_, rfl, rfl⟩
    have h2 := congrArg Prod.snd heq
    exact h2.symm.trans (hread s)
  · rename_i v s1 heq
    have h2 := (congrArg Prod.snd heq).symm.trans (hread s)
    split
    · exact ⟨h2, rfl, rfl⟩
    · exact ⟨h2, rfl, rfl⟩

/-- If version reads and dry-run initialization leave the database state
unchanged, a dry `initCtx` returns the incoming state and a migrator with
the same database and registry. -/
theorem Migrator.initCtx_dry_frame (m : Migrator σ) (s : σ)
    (hread : ∀ t, (m.db.Version t).2 = t)
    (hinit : ∀ t v, (m.db.InitVersion t v true).2 = t) :
    (m.initCtx s true).2.2 = s ∧ (m.initCtx s true).2.1.db = m.db ∧
      (m.initCtx s true).2.1.steps = m.steps := by
  obtain ⟨hs1, hdb1, hst1⟩ := m.versionCtx_frame s hread
  unfold Migrator.initCtx
  split
  · rename_i m1 s1 heq
    have h1 : s1 = s := by
      rw [← hs1, heq]
    have h2 : m1.db = m.db := by
      rw [← hdb1, heq]
    have h3 : m1.steps = m.steps := by
      rw [← hst1, heq]
    exact ⟨h1, h2, h3⟩
  · rename_i m1 s1 heq
    have h1 : s1 = s := by
      rw [← hs1, heq]
    have h2 : m1.db = m.db := by
      rw [← hdb1, heq]
    have h3 : m1.steps = m.steps := by
      rw [← hst1, heq]
    split
    · exact ⟨h1, h2, h3⟩
    · split
      · rename_i v heqv x e2 s2 heq2
        have h4 : s2 = s := by
          have := congrArg Prod.snd heq2
          rw [h2] at this
          exact this.symm.trans ((hinit s1 v).trans h1)
        exact ⟨h4, h2, h3⟩
      · rename_i v heqv x s2 heq2
        have h4 : s2 = s := by
          have := congrArg Prod.snd heq2
          rw [h2] at this
          exact this.symm.trans ((hinit s1 v).trans h1)
        rw [if_pos rfl]
        exact ⟨h4, h2, h3⟩

/-- C4 counterexample: `InitDryRun` CAN modify the Migrator's cached
version: on a fresh migrator (cached version = bad sentinel) over an
already-initialized database, the embedded version check caches the
database's version `wv0` even though the call is a dry run. -/
theorem C4_counterexample :
    ((New dbOk (steps2 Unit)).InitDryRunCtx ()).2.1.cachedVersion = wv0 ∧
    (New dbOk (steps2 Unit)).cachedVersion = badVersion ∧
    wv0 ≠ badVersion :=
  ⟨rfl, rfl, by decide⟩

/-- C4 amended: `OneUpDryRun` and `OneDownDryRun` never modify the Migrator
(in particular its cached version), even on success; provided the invoked
operations honour the dry-run contract (they leave the database state
unchanged when `dryRun` is true) they also leave the database state
unchanged, so a subsequent `Version` call returns exactly what it would have
returned before; `InitDryRun` leaves the database state unchanged under the
same contract — so the value of a subsequent `Version` call is unchanged —
but may update the cached version through its embedded version check. -/
theorem C4_amended (m : Migrator σ) (s : σ) :
    (m.OneUpDryRunCtx s).2.1 = m ∧
    (m.OneDownDryRunCtx s).2.1 = m ∧
    ((∀ t info, (m.db.DefaultStepFunc t info true).2 = t) →
     (∀ st ∈ m.steps.steps, ∀ f, st.up = some f →
        ∀ t info, (f t info true).2 = t) →
      (m.OneUpDryRunCtx s).2.2 = s ∧
      ((m.OneUpDryRunCtx s).2.1).VersionCtx ((m.OneUpDryRunCtx s).2.2) =
        m.VersionCtx s) ∧
    ((∀ t info, (m.db.DefaultStepFunc t info true).2 = t) →
     (∀ st ∈ m.steps.steps, ∀ f, st.down = some f →
        ∀ t info, (f t info true).2 = t) →
      (m.OneDownDryRunCtx s).2.2 = s ∧
      ((m.OneDownDryRunCtx s).2.1).VersionCtx ((m.OneDownDryRunCtx s).2.2) =
        m.VersionCtx s) ∧
    ((∀ t, (m.db.Version t).2 = t) →
     (∀ t v, (m.db.InitVersion t v true).2 = t) →
      (m.InitDryRunCtx s).2.2 = s ∧
      (((m.InitDryRunCtx s).2.1).VersionCtx ((m.InitDryRunCtx s).2.2)).1 =
        (m.VersionCtx s).1) := by
  have hu1 : (m.OneUpDryRunCtx s).2.1 = m := by
    rw [Migrator.OneUpDryRunCtx_2]
    exact m.oneUp_dry s
  have hd1 : (m.OneDownDryRunCtx s).2.1 = m := by
    rw [Migrator.OneDownDryRunCtx_2]
    exact m.oneDown_dry s
  refine ⟨hu1, hd1, ?_, ?_, ?_⟩
  · intro hdb hups
    have hs2 : (m.OneUpDryRunCtx s).2.2 = s := by
      rw [Migrator.OneUpDryRunCtx_2]
      exact m.oneUp_dry_state s hdb hups
    refine ⟨hs2, ?_⟩
    rw [hu1, hs2]
  · intro hdb hdowns
    have hs2 : (m.OneDownDryRunCtx s).2.2 = s := by
      rw [Migrator.OneDownDryRunCtx_2]
      exact m.oneDown_dry_state s hdb hdowns
    refine ⟨hs2, ?_⟩
    rw [hd1, hs2]
  · intro hread hinit
    obtain ⟨hs2, hdb2, hst2⟩ := m.initCtx_dry_frame s hread hinit
    have he : m.InitDryRunCtx s = m.initCtx s true := rfl
    rw [he, hs2]
    exact ⟨rfl, Migrator.versionCtx_val m _ s hdb2 hst2⟩

/-- Witness for C4 over the counting database: the dry-run one-step methods
leave the concrete migrator and the step counter untouched, and a dry `Init`
on a fresh migrator leaves the counter untouched. -/
theorem C4_amended_witness :
    ((Migrator.mk dbCount (steps2 Nat) wv0).OneUpDryRunCtx 5).2.1 =
      Migrator.mk dbCount (steps2 Nat) wv0 ∧
    ((Migrator.mk dbCount (steps2 Nat) wv0).OneUpDryRunCtx 5).2.2 = 5 ∧
    ((Migrator.mk dbCount (steps2 Nat) wv1).OneDownDryRunCtx 5).2.1 =
      Migrator.mk dbCount (steps2 Nat) wv1 ∧
    ((Migrator.mk dbCount (steps2 Nat) wv1).OneDownDryRunCtx 5).2.2 = 5 ∧
    ((New dbCount (steps2 Nat)).InitDryRunCtx 5).2.2 = 5 := by
  have hdb : ∀ (t : Nat) info,
      ((Migrator.mk dbCount (steps2 Nat) wv0).db.DefaultStepFunc t info
        true).2 = t := fun _ _ => rfl
  have hnof : ∀ st ∈ (steps2 Nat).steps, ∀ f : StepFunc Nat,
      (st.up = some f ∨ st.down = some f) →
      ∀ t info, (f t info true).2 = t := by
    intro st hst f hf t info
    exfalso
    rcases List.mem_cons.mp hst with h | h2
    · subst h
      rcases hf with hf | hf <;> exact Option.noConfusion hf
    · rcases List.mem_cons.mp h2 with h | h3
      · subst h
        rcases hf with hf | hf <;> exact Option.noConfusion hf
      · cases h3
  refine ⟨(C4_amended (Migrator.mk dbCount (steps2 Nat) wv0) 5).1,
    ((C4_amended (Migrator.mk dbCount (steps2 Nat) wv0) 5).2.2.1 hdb
      (fun st hst f hf => hnof st hst f (Or.inl hf))).1,
    (C4_amended (Migrator.mk dbCount (steps2 Nat) wv1) 5).2.1,
    ((C4_amended (Migrator.mk dbCount (steps2 Nat) wv1) 5).2.2.2.1
      (fun _ _ => rfl) (fun st hst f hf => hnof st hst f (Or.inr hf))).1,
    ((C4_amended (New dbCount (steps2 Nat)) 5).2.2.2.2 (fun _ => rfl)
      (fun _ _ => rfl)).1⟩

/-- C5: behaviour of a `TxF` step function run against a database at version
`info.From`.  (a) If the callback loop finishes with the cancel flag set and
no aborting error (every callback error was a Cancel, at least one occurred),
the step function returns success with the durable state rolled back to `s`,
and this holds for EVERY version-update function — `SetVersionTx` is never
executed.  (b) If the loop stops at a non-Cancel error, that error does not
satisfy `errors.Is(·, ErrCancel)`, and the step function rolls back and
returns a non-nil error wrapping it.  (c) A callback returning a Cancel
error does not stop the loop: the remaining callbacks still run, on the
state it produced, with the cancel flag set. -/
theorem C5_txf_cancel_abort (db : TxDB δ) (fs : List (TxFunc δ)) (s : δ)
    (info : StepInfo) (dryRun : Bool)
    (hver : db.VersionTx s = .ok info.From) :
    (∀ p1, runTxFuncs fs s info dryRun false = (none, p1, true) →
      ∀ sv2, TxF (TxDB.mk db.VersionTx sv2) fs s info dryRun = (none, s)) ∧
    (∀ e p1 c1, runTxFuncs fs s info dryRun false = (some e, p1, c1) →
      e.is ErrCancel = false ∧
      ∃ e2, TxF db fs s info dryRun = (some e2, s) ∧ e2.is e = true) ∧
    (∀ (f : TxFunc δ) rest p e p1 c, f p info dryRun = (some e, p1) →
      e.is ErrCancel = true →
      runTxFuncs (f :: rest) p info dryRun c =
        runTxFuncs rest p1 info dryRun true) := by
  refine ⟨?_, ?_, ?_⟩
  · intro p1 hrun sv2
    have hv2 : (TxDB.mk db.VersionTx sv2).VersionTx s = .ok info.From := hver
    unfold TxF
    rw [hv2, hrun]
    simp [GoErr.is_self]
  · intro e p1 c1 hrun
    have hnc := runTxFuncs_not_cancel info dryRun fs s false e p1 c1 hrun
    refine ⟨hnc, ?_⟩
    unfold TxF
    rw [hver, hrun]
    cases dryRun
    · refine ⟨.wrap ("txf " ++ info.From.str ++ " to " ++ info.To.str) e,
        ?_, GoErr.is_wrap _ _ _ (GoErr.is_self _)⟩
      simp [hnc]
    · refine ⟨.wrap ("txf dry run " ++ info.From.str ++ " to " ++
        info.To.str) e, ?_, GoErr.is_wrap _ _ _ (GoErr.is_self _)⟩
      simp [hnc]
  · intro f rest p e p1 c hf hcan
    simp only [runTxFuncs]
    rw [hf]
    simp [hcan]

/-- Witness for C5 on the version-row database: a cancelling callback makes
the step succeed without moving the version and without running the
(poisoned) version update, and still hands control to the remaining (empty)
callback list; an aborting callback makes the step fail with an error
wrapping `ErrAbort`, version unmoved. -/
theorem C5_txf_cancel_abort_witness :
    TxF (TxDB.mk txdbV.VersionTx svPoison) [cancelF] wv0 infoW false =
      (none, wv0) ∧
    runTxFuncs [cancelF] wv0 infoW false false =
      runTxFuncs [] wv0 infoW false true ∧
    (ErrAbort.is ErrCancel = false ∧
      ∃ e2, TxF txdbV [abortF] wv0 infoW false = (some e2, wv0) ∧
        e2.is ErrAbort = true) :=
  ⟨(C5_txf_cancel_abort txdbV [cancelF] wv0 infoW false rfl).1 wv0 rfl
      svPoison,
   (C5_txf_cancel_abort txdbV [cancelF] wv0 infoW false rfl).2.2 cancelF []
      wv0 ErrCancel wv0 false rfl (by decide),
   (C5_txf_cancel_abort txdbV [abortF] wv0 infoW false rfl).2.1 ErrAbort wv0
      false rfl⟩

end Migrate
